import Mathlib

/-!
Shallow embedding of the two processing algorithms of the qgis_methodOtsu
plugin: the Otsu threshold segmenter (`methodOtsu.py`,
`OtsuWaterMask.processAlgorithm`) and the water-object classifier
(`waterClassify.py`, `WaterObjectClassification.processAlgorithm`).

Numeric raster samples and geometry measures are embedded as exact
rationals (ℚ).  A raster cell holds `Option ℚ`, with `none` standing for a
floating-point NaN: every ordered comparison with NaN is false, and NaN
samples are dropped from the valid-sample statistics, exactly as in the
numpy code.
-/

/-- A single-band raster as read through GDAL in `methodOtsu.py`
lines 34-40: the 2-D sample array `data` (row index first, as in
`arr.shape = (height, width)`), the optional no-data sentinel, the
geotransform and the projection string. -/
structure Raster where
  width : ℕ
  height : ℕ
  data : ℕ → ℕ → Option ℚ
  nodata : Option ℚ
  gt : ℚ × ℚ × ℚ × ℚ × ℚ × ℚ
  proj : String

/-- Valid samples of one raster row (`methodOtsu.py` lines 43-48): a cell
survives when it is not the no-data sentinel and not NaN.  The numpy code
first drops no-data cells (`arr[valid_mask]`) and then NaN cells
(`arr_valid[~np.isnan(arr_valid)]`); both passes preserve row-major order,
so together they are the single order-preserving `filterMap` below. -/
def rowSamples (r : Raster) (i : ℕ) : List ℚ :=
  (List.range r.width).filterMap fun j =>
    match r.data i j with
    | none => none
    | some v => if r.nodata = some v then none else some v

/-- All valid samples of the raster, flattened in row-major order. -/
def validSamples (r : Raster) : List ℚ :=
  (List.range r.height).flatMap (rowSamples r)

/-- `arr_valid.min()` (`methodOtsu.py` line 51); the `[]` branch is
unreachable because the pipeline fails first on an empty valid set. -/
def segMin (r : Raster) : ℚ :=
  match validSamples r with
  | [] => 0
  | v :: rest => rest.foldl min v

/-- `arr_valid.max()` (`methodOtsu.py` line 52). -/
def segMax (r : Raster) : ℚ :=
  match validSamples r with
  | [] => 0
  | v :: rest => rest.foldl max v

/-- The normalisation of one valid sample (`methodOtsu.py` line 53):
`((value - min) / (max - min) * 255).astype(np.uint8)`.  The numpy
`astype` cast truncates toward zero; the rescaled value is nonnegative
whenever `min ≤ value` and `min ≤ max`, so the cast is the floor. -/
def scaledOf (mn mx v : ℚ) : ℕ :=
  (⌊(v - mn) / (mx - mn) * 255⌋).toNat

/-- Running state of the OpenCV `getThreshVal_Otsu_8u` histogram scan:
the mass `q1` of the lower class, its mean `mu1`, the best between-class
variance seen so far and the bin index attaining it. -/
structure OtsuState where
  q1 : ℚ
  mu1 : ℚ
  maxSigma : ℚ
  maxVal : ℕ

/-- One iteration of the OpenCV Otsu scan at bin `i` with bin probability
`p`.  `mu` is the global mean of the scaled histogram.  The guard
`min(q1,q2) < FLT_EPSILON || max(q1,q2) > 1 - FLT_EPSILON` of the C++
source becomes `q1 ≤ 0 ∨ q2 ≤ 0` in exact arithmetic (with `q1 + q2 = 1`
both disjunctions coincide). -/
def otsuStep (mu : ℚ) (st : OtsuState) (i : ℕ) (p : ℚ) : OtsuState :=
  let mu1w := st.mu1 * st.q1
  let q1 := st.q1 + p
  let q2 := 1 - q1
  if q1 ≤ 0 ∨ q2 ≤ 0 then
    { st with q1 := q1, mu1 := mu1w }
  else
    let mu1 := (mu1w + (i : ℚ) * p) / q1
    let mu2 := (mu - q1 * mu1) / q2
    let sigma := q1 * q2 * (mu1 - mu2) * (mu1 - mu2)
    if st.maxSigma < sigma then ⟨q1, mu1, sigma, i⟩
    else ⟨q1, mu1, st.maxSigma, st.maxVal⟩

/-- The OpenCV Otsu split point over an 8-bit histogram `hist` with `n`
samples (`cv2.threshold(..., cv2.THRESH_BINARY + cv2.THRESH_OTSU)` on
`methodOtsu.py` line 56 returns exactly the `max_val` of this scan). -/
def otsuThreshold (hist : ℕ → ℕ) (n : ℕ) : ℕ :=
  if n = 0 then 0
  else
    let scale : ℚ := 1 / (n : ℚ)
    let mu : ℚ := (((List.range 256).map fun i : ℕ => (i : ℚ) * (hist i : ℚ)).sum) * scale
    ((List.range 256).foldl (fun st i => otsuStep mu st i ((hist i : ℚ) * scale)) ⟨0, 0, 0, 0⟩).maxVal

/-- The scaled valid samples fed to `cv2.threshold`. -/
def segScaled (r : Raster) : List ℕ :=
  (validSamples r).map (scaledOf (segMin r) (segMax r))

/-- The 8-bit histogram of the scaled samples. -/
def segHist (r : Raster) : ℕ → ℕ :=
  fun b => (segScaled r).count b

/-- The Otsu split point `t*` of the scaled histogram of this raster. -/
def segT (r : Raster) : ℕ :=
  otsuThreshold (segHist r) (segScaled r).length

/-- The threshold mapped back to original units (`methodOtsu.py` line 57):
`otsu_value = arr_min + (threshold / 255.0) * (arr_max - arr_min)`. -/
def segThreshold (r : Raster) : ℚ :=
  segMin r + ((segT r : ℚ) / 255) * (segMax r - segMin r)

/-- The binarisation of one cell (`methodOtsu.py` lines 61-64): first
`mask[arr >= otsu_value] = 1` (a comparison with NaN is false, so NaN
cells keep 0), then `mask[arr == nodata] = 0` forces no-data cells back
to 0. -/
def maskVal (nodata : Option ℚ) (thr : ℚ) (cell : Option ℚ) : ℕ :=
  let m : ℕ :=
    match cell with
    | none => 0
    | some v => if thr ≤ v then 1 else 0
  match nodata, cell with
  | some nd, some v => if v = nd then 0 else m
  | _, _ => m

/-- Failure kinds of the segmenter.  `emptyInput` models the `ValueError`
numpy raises at `arr_valid.min()` on an empty array (`methodOtsu.py`
line 51), surfaced to the caller before any output is created.
`degenerateRange` is the error kind the spec names for a constant-valued input;
it is declared so that spec-level statements are expressible, but the
code never raises it (the division by `max - min = 0` produces NaN
values, which the `uint8` cast sends to 0, and the run continues). -/
inductive SegError where
  | emptyInput
  | degenerateRange
deriving DecidableEq

/-- Everything the segmenter writes or reports on success
(`methodOtsu.py` lines 58 and 66-78): the size of the output raster,
geotransform, projection and no-data value, the reported threshold and
the mask contents. -/
structure SegResult where
  width : ℕ
  height : ℕ
  gt : ℚ × ℚ × ℚ × ℚ × ℚ × ℚ
  proj : String
  nodataOut : ℚ
  threshold : ℚ
  mask : ℕ → ℕ → ℕ

/-- The whole segmenter run (`OtsuWaterMask.processAlgorithm`).  The run
aborts, writing nothing, exactly when the valid-sample list is empty;
otherwise it writes a full mask with the input size, geotransform and
projection, output no-data value 0, and reports the mapped threshold. -/
def processOtsu (r : Raster) : Except SegError SegResult :=
  if validSamples r = [] then Except.error SegError.emptyInput
  else
    Except.ok
      { width := r.width
        height := r.height
        gt := r.gt
        proj := r.proj
        nodataOut := 0
        threshold := segThreshold r
        mask := fun i j => maskVal r.nodata (segThreshold r) (r.data i j) }

/-!
Object classifier (`waterClassify.py`).

The polygonization (`gdal:polygonize`) and attribute filter
(`native:extractbyattribute`, `DN == 1`) are delegated to external
providers; the vectorized polygon list enters the embedding as data, the
filter is the list filter it performs, and the per-feature loop of
`processAlgorithm` lines 111-152 is embedded directly.  Geometry
measurements (`area()`, `length()`, `orientedMinimumBoundingBox()`) are
values supplied by the geometry library; the four side lengths of a
bounding rectangle are distances between consecutive ring corners, so
the metric contract of the library makes them nonnegative, which is recorded
as a structure invariant.
-/

/-- The result of `geom.orientedMinimumBoundingBox()` when it is not
`None`: the validity flag of the rectangle geometry (`isGeosValid`) and its
four ring side lengths
(`rect_coords[i].distance(rect_coords[i+1]) for i in range(4)`,
`waterClassify.py` line 123).  Distances are nonnegative. -/
structure OMBB where
  valid : Bool
  sides : Fin 4 → ℚ
  sides_nonneg : ∀ i, 0 ≤ sides i

/-- A polygon geometry as used by the classifier loop: its planar area
(`geom.area()`), its boundary length (`geom.length()`) and its oriented
minimum bounding rectangle (`none` when the computation fails). -/
structure Geometry where
  area : ℚ
  length : ℚ
  ombb : Option OMBB

/-- A feature attribute value: the polygonized layers carry numeric
fields, the classifier appends a string class label. -/
inductive AttrVal where
  | num (q : ℚ)
  | str (s : String)
deriving DecidableEq

/-- An input feature of the classifier loop: its geometry, the value of
its `DN` field and its full original attribute list. -/
structure InFeature where
  geom : Geometry
  dn : ℤ
  attrs : List AttrVal

/-- The five class labels of `waterClassify.py` lines 136-145. -/
inductive WaterClass where
  | river
  | lake
  | creek
  | pond
  | generic
deriving DecidableEq

/-- The label strings written into the `class` attribute. -/
def classLabel : WaterClass → String
  | WaterClass.river => " Река"
  | WaterClass.lake => " Озеро"
  | WaterClass.creek => " Ерик"
  | WaterClass.pond => " Пруд"
  | WaterClass.generic => " Водоём"

/-- `width = min(side_lengths)` over the four rectangle sides. -/
def sideMin (s : Fin 4 → ℚ) : ℚ :=
  min (min (s 0) (s 1)) (min (s 2) (s 3))

/-- `height = max(side_lengths)` over the four rectangle sides. -/
def sideMax (s : Fin 4 → ℚ) : ℚ :=
  max (max (s 0) (s 1)) (max (s 2) (s 3))

/-- Elongation and main-axis length of one polygon
(`waterClassify.py` lines 118-133): if the oriented minimum bounding
rectangle exists and is GEOS-valid, `elongation = height / width` when
`width > 0` (else `1.0`) and `main_axis = max(side_lengths)`; on any
failure the fallback is `elongation = 1.0`, `main_axis = 0`. -/
def elongMainAxis (g : Geometry) : ℚ × ℚ :=
  match g.ombb with
  | none => (1, 0)
  | some rect =>
    if rect.valid then
      let width := sideMin rect.sides
      let height := sideMax rect.sides
      (if 0 < width then height / width else 1, height)
    else (1, 0)

/-- The ordered first-match-wins rule chain of `waterClassify.py`
lines 136-145. -/
def classify (area elong mainAxis : ℚ) : WaterClass :=
  if 8000 < mainAxis ∧ 3 < elong then WaterClass.river
  else if 500000 < area ∧ elong < 2 then WaterClass.lake
  else if area < 20000 ∧ 2 < elong then WaterClass.creek
  else if area < 10000 then WaterClass.pond
  else WaterClass.generic

/-- An output feature: unchanged geometry, the attribute row
`f.attributes() + [area, perim, elongation, main_axis, cls]`
(`waterClassify.py` lines 147-150), and, for convenience of statements,
the class decided for it (the last attribute is its label string). -/
structure OutFeature where
  geom : Geometry
  cls : WaterClass
  attrs : List AttrVal

/-- The body of one loop iteration (`waterClassify.py` lines 114-151):
measure the geometry, classify, and build the output feature. -/
def emitFeature (f : InFeature) : OutFeature :=
  let area := f.geom.area
  let perim := f.geom.length
  let elong := (elongMainAxis f.geom).1
  let mainAxis := (elongMainAxis f.geom).2
  let cls := classify area elong mainAxis
  { geom := f.geom
    cls := cls
    attrs := f.attrs ++
      [AttrVal.num area, AttrVal.num perim, AttrVal.num elong,
        AttrVal.num mainAxis, AttrVal.str (classLabel cls)] }

/-- The `native:extractbyattribute` step (`waterClassify.py` lines
84-95): keep exactly the polygons whose `DN` field equals 1. -/
def filterWater (l : List InFeature) : List InFeature :=
  l.filter fun f => decide (f.dn = 1)

/-- The per-feature loop (`waterClassify.py` lines 111-151): at each
iteration the cancellation flag is polled first
(`if feedback.isCanceled(): break`), then the feature is processed and
added to the sink.  `i` is the running `enumerate` index. -/
def runLoop : List InFeature → ℕ → (ℕ → Bool) → List OutFeature
  | [], _, _ => []
  | f :: rest, i, canceled =>
    if canceled i then []
    else emitFeature f :: runLoop rest (i + 1) canceled

/-- A feedback whose cancellation flag is never raised. -/
def noCancel : ℕ → Bool := fun _ => false

/-- The classifier stage from the `DN == 1` filter on: the emitted
output feature sequence for a given cancellation flag history. -/
def classifyAll (inputs : List InFeature) (canceled : ℕ → Bool) : List OutFeature :=
  runLoop (filterWater inputs) 0 canceled

/-- Output features carrying a given class label. -/
def countClass (c : WaterClass) (l : List OutFeature) : ℕ :=
  (l.filter fun o => decide (o.cls = c)).length

/-!
Auxiliary definitions for statements and concrete instances.
-/

/-- A cell that contributes no valid sample: it is NaN or carries the
no-data sentinel. -/
def cellInvalid (r : Raster) (i j : ℕ) : Prop :=
  match r.data i j with
  | none => True
  | some v => r.nodata = some v

/-- Whether a segmenter run produced an output. -/
def isOkSeg : Except SegError SegResult → Bool
  | Except.ok _ => true
  | Except.error _ => false

/-- The rescaling formula as the spec words it, for comparison with the
code-side `scaledOf`: `scaled = round((value - min) / (max - min) * 255)`,
rounding to the nearest integer. -/
def scaledSpecRound (mn mx v : ℚ) : ℤ :=
  round ((v - mn) / (mx - mn) * 255)

/-- Placeholder segmenter output (used only to destructure an `Except`
that is known to be `ok`). -/
def defaultSeg : SegResult :=
  { width := 0, height := 0, gt := (0, 0, 0, 0, 0, 0), proj := "", nodataOut := 0
    threshold := 0, mask := fun _ _ => 0 }

/-- A 1×3 raster with samples `0, 1, nodata`, no-data sentinel 9. -/
def rEx : Raster :=
  { width := 3, height := 1, nodata := some 9
    data := fun i j =>
      if i = 0 ∧ j = 0 then some 0
      else if i = 0 ∧ j = 1 then some 1
      else if i = 0 ∧ j = 2 then some 9
      else none
    gt := (0, 1, 0, 0, 0, -1), proj := "EPSG:32633" }

/-- The segmenter output on `rEx` (the run succeeds). -/
def rExOut : SegResult :=
  match processOtsu rEx with
  | Except.ok o => o
  | Except.error _ => defaultSeg

/-- A 1×2 constant raster: both samples are 5, no no-data sentinel. -/
def rConst : Raster :=
  { width := 2, height := 1, nodata := none
    data := fun _ _ => some 5
    gt := (0, 1, 0, 0, 0, -1), proj := "EPSG:32633" }

/-- A 1×3 raster with samples `0, 1, 2`: the sample 1 rescales to the
non-integer value 127.5, separating truncation from rounding. -/
def rC5 : Raster :=
  { width := 3, height := 1, nodata := none
    data := fun i j =>
      if i = 0 ∧ j = 0 then some 0
      else if i = 0 ∧ j = 1 then some 1
      else if i = 0 ∧ j = 2 then some 2
      else none
    gt := (0, 1, 0, 0, 0, -1), proj := "EPSG:32633" }

/-- A 1×1 raster whose only cell carries the no-data sentinel: it has no
valid samples. -/
def rEmpty : Raster :=
  { width := 1, height := 1, nodata := some 7
    data := fun _ _ => some 7
    gt := (0, 1, 0, 0, 0, -1), proj := "EPSG:32633" }

/-- A geometry whose oriented minimum bounding rectangle computation
failed. -/
def gFallback : Geometry :=
  { area := 100, length := 40, ombb := none }

/-- A water feature (`DN = 1`) with the fallback geometry. -/
def fEx : InFeature :=
  { geom := gFallback, dn := 1, attrs := [AttrVal.num 1] }

/-!
Helper lemmas.
-/

theorem foldl_min_le_init (l : List ℚ) (a : ℚ) : l.foldl min a ≤ a := by
  induction l generalizing a with
  | nil => exact le_refl a
  | cons b t ih => exact le_trans (ih (min a b)) (min_le_left a b)

theorem foldl_min_le_mem {x : ℚ} (l : List ℚ) (a : ℚ) (hx : x ∈ l) :
    l.foldl min a ≤ x := by
  induction l generalizing a with
  | nil => cases hx
  | cons b t ih =>
    rcases List.mem_cons.mp hx with h | h
    · subst h
      exact le_trans (foldl_min_le_init t (min a x)) (min_le_right a x)
    · exact ih (min a b) h

theorem init_le_foldl_max (l : List ℚ) (a : ℚ) : a ≤ l.foldl max a := by
  induction l generalizing a with
  | nil => exact le_refl a
  | cons b t ih => exact le_trans (le_max_left a b) (ih (max a b))

theorem mem_le_foldl_max {x : ℚ} (l : List ℚ) (a : ℚ) (hx : x ∈ l) :
    x ≤ l.foldl max a := by
  induction l generalizing a with
  | nil => cases hx
  | cons b t ih =>
    rcases List.mem_cons.mp hx with h | h
    · subst h
      exact le_trans (le_max_right a x) (init_le_foldl_max t (max a x))
    · exact ih (max a b) h

theorem segMin_le_of_mem {r : Raster} {v : ℚ} (hv : v ∈ validSamples r) :
    segMin r ≤ v := by
  rcases hl : validSamples r with _ | ⟨w, rest⟩
  · rw [hl] at hv; cases hv
  · rw [hl] at hv
    simp only [segMin, hl]
    rcases List.mem_cons.mp hv with h | h
    · subst h; exact foldl_min_le_init rest v
    · exact foldl_min_le_mem rest w h

theorem le_segMax_of_mem {r : Raster} {v : ℚ} (hv : v ∈ validSamples r) :
    v ≤ segMax r := by
  rcases hl : validSamples r with _ | ⟨w, rest⟩
  · rw [hl] at hv; cases hv
  · rw [hl] at hv
    simp only [segMax, hl]
    rcases List.mem_cons.mp hv with h | h
    · subst h; exact init_le_foldl_max rest v
    · exact mem_le_foldl_max rest w h

theorem segMin_le_segMax {r : Raster} (hne : validSamples r ≠ []) :
    segMin r ≤ segMax r := by
  rcases hl : validSamples r with _ | ⟨w, rest⟩
  · exact absurd hl hne
  · have hw : w ∈ validSamples r := by rw [hl]; exact List.mem_cons_self w rest
    exact le_trans (segMin_le_of_mem hw) (le_segMax_of_mem hw)

theorem otsuStep_maxVal_le {mu p : ℚ} {st : OtsuState} {i B : ℕ}
    (hst : st.maxVal ≤ B) (hi : i ≤ B) : (otsuStep mu st i p).maxVal ≤ B := by
  unfold otsuStep
  dsimp only
  split
  · exact hst
  · split
    · exact hi
    · exact hst

theorem otsuFold_maxVal_le (mu : ℚ) (p : ℕ → ℚ) (B : ℕ) :
    ∀ (l : List ℕ) (st : OtsuState), (∀ i ∈ l, i ≤ B) → st.maxVal ≤ B →
      ((l.foldl (fun s i => otsuStep mu s i (p i)) st).maxVal ≤ B)
  | [], st, _, hst => hst
  | i :: t, st, hl, hst => by
    refine otsuFold_maxVal_le mu p B t (otsuStep mu st i (p i)) ?_ ?_
    · exact fun b hb => hl b (List.mem_cons_of_mem i hb)
    · exact otsuStep_maxVal_le hst (hl i (List.mem_cons_self i t))

theorem otsuThreshold_le (hist : ℕ → ℕ) (n : ℕ) : otsuThreshold hist n ≤ 255 := by
  unfold otsuThreshold
  split
  · exact Nat.zero_le 255
  · refine otsuFold_maxVal_le _ _ 255 (List.range 256) ⟨0, 0, 0, 0⟩ ?_ (Nat.zero_le 255)
    intro i hi
    exact Nat.lt_succ_iff.mp (List.mem_range.mp hi)

theorem maskVal_eq_one_iff (nodata : Option ℚ) (thr : ℚ) (cell : Option ℚ) :
    maskVal nodata thr cell = 1 ↔
      ∃ v, cell = some v ∧ nodata ≠ some v ∧ thr ≤ v := by
  rcases cell with _ | v <;> rcases nodata with _ | nd
  · simp [maskVal]
  · simp [maskVal]
  · simp only [maskVal]
    split_ifs with h
    · exact iff_of_true rfl ⟨v, rfl, by simp, h⟩
    · refine iff_of_false (by decide) ?_
      rintro ⟨w, hw, -, ht⟩
      obtain rfl : v = w := Option.some.inj hw
      exact h ht
  · simp only [maskVal]
    split_ifs with h1 h2
    · refine iff_of_false (by decide) ?_
      rintro ⟨w, hw, h3, -⟩
      exact h3 (by rw [← hw, h1])
    · refine iff_of_true rfl ⟨v, rfl, ?_, h2⟩
      intro he
      exact h1 (Option.some.inj he).symm
    · refine iff_of_false (by decide) ?_
      rintro ⟨w, hw, -, ht⟩
      obtain rfl : v = w := Option.some.inj hw
      exact h2 ht

theorem maskVal_zero_or_one (nodata : Option ℚ) (thr : ℚ) (cell : Option ℚ) :
    maskVal nodata thr cell = 0 ∨ maskVal nodata thr cell = 1 := by
  rcases cell with _ | v <;> rcases nodata with _ | nd <;> simp only [maskVal]
  · exact Or.inl trivial
  · exact Or.inl trivial
  · split_ifs <;> simp
  · split_ifs <;> simp

theorem maskVal_none (nodata : Option ℚ) (thr : ℚ) :
    maskVal nodata thr none = 0 := by
  rcases nodata with _ | nd <;> rfl

theorem maskVal_nodata_cell (nd thr : ℚ) :
    maskVal (some nd) thr (some nd) = 0 := by
  simp [maskVal]

theorem runLoop_noCancel_eq : ∀ (l : List InFeature) (i : ℕ),
    runLoop l i noCancel = l.map emitFeature
  | [], _ => rfl
  | f :: t, i => by
    show emitFeature f :: runLoop t (i + 1) noCancel = emitFeature f :: t.map emitFeature
    rw [runLoop_noCancel_eq t (i + 1)]

theorem classifyAll_noCancel_eq (inputs : List InFeature) :
    classifyAll inputs noCancel = (filterWater inputs).map emitFeature :=
  runLoop_noCancel_eq (filterWater inputs) 0

theorem runLoop_take_shape : ∀ (l : List InFeature) (i : ℕ) (c : ℕ → Bool),
    ∃ k, runLoop l i c = (l.map emitFeature).take k ∧
      (k = l.length ∨ k < l.length) ∧
      (k = l.length ∨ c (i + k) = true) ∧
      (∀ j, j < k → c (i + j) = false)
  | [], i, c => ⟨0, rfl, Or.inl rfl, Or.inl rfl, fun j hj => absurd hj (Nat.not_lt_zero j)⟩
  | f :: t, i, c => by
    by_cases hc : c i = true
    · refine ⟨0, ?_, Or.inr (Nat.succ_pos _), Or.inr (by rw [Nat.add_zero]; exact hc),
        fun j hj => absurd hj (Nat.not_lt_zero j)⟩
      simp [runLoop, hc]
    · obtain ⟨k, hk1, hk2, hk3, hk4⟩ := runLoop_take_shape t (i + 1) c
      have hcf : c i = false := Bool.eq_false_iff.mpr hc
      refine ⟨k + 1, ?_, ?_, ?_, ?_⟩
      · simp only [runLoop, hcf, List.map_cons, List.take_succ_cons, if_neg Bool.false_ne_true]
        exact congrArg _ hk1
      · rcases hk2 with h | h
        · exact Or.inl (by simp [h])
        · exact Or.inr (by simp; omega)
      · rcases hk3 with h | h
        · exact Or.inl (by simp [h])
        · refine Or.inr ?_
          have : i + (k + 1) = i + 1 + k := by omega
          rw [this]; exact h
      · intro j hj
        rcases Nat.eq_zero_or_pos j with h0 | h0
        · subst h0; rw [Nat.add_zero]; exact hcf
        · obtain ⟨j0, rfl⟩ := Nat.exists_eq_add_of_lt h0
          have : i + (j0 + 1) = i + 1 + j0 := by omega
          rw [Nat.zero_add, this]
          exact hk4 j0 (by omega)

theorem countClass_cons (c : WaterClass) (o : OutFeature) (t : List OutFeature) :
    countClass c (o :: t) = (if o.cls = c then 1 else 0) + countClass c t := by
  simp only [countClass, List.filter_cons, decide_eq_true_eq]
  split_ifs with h <;> (try simp only [List.length_cons]) <;> omega

theorem length_eq_sum_counts (l : List OutFeature) :
    countClass WaterClass.river l + countClass WaterClass.lake l +
      countClass WaterClass.creek l + countClass WaterClass.pond l +
      countClass WaterClass.generic l = l.length := by
  induction l with
  | nil => rfl
  | cons o t ih =>
    rcases h : o.cls <;> simp [countClass_cons, h] <;> omega

theorem sideMin_le_sideMax (s : Fin 4 → ℚ) : sideMin s ≤ sideMax s :=
  le_trans (le_trans (min_le_left _ _) (min_le_left _ _))
    (le_trans (le_max_left _ _) (le_max_left _ _))

theorem sideMax_nonneg (s : Fin 4 → ℚ) (hs : ∀ i, 0 ≤ s i) : 0 ≤ sideMax s :=
  le_trans (hs 0) (le_trans (le_max_left _ _) (le_max_left _ _))

theorem filterMap_eq_nil_of {α β : Type} (f : α → Option β) :
    ∀ (l : List α), (∀ a ∈ l, f a = none) → l.filterMap f = []
  | [], _ => rfl
  | a :: t, h => by
    rw [List.filterMap_cons, h a (List.mem_cons_self a t)]
    exact filterMap_eq_nil_of f t fun b hb => h b (List.mem_cons_of_mem a hb)

theorem flatMap_eq_nil_of {α β : Type} (f : α → List β) :
    ∀ (l : List α), (∀ a ∈ l, f a = []) → l.flatMap f = []
  | [], _ => rfl
  | a :: t, h => by
    rw [List.flatMap_cons, h a (List.mem_cons_self a t), List.nil_append]
    exact flatMap_eq_nil_of f t fun b hb => h b (List.mem_cons_of_mem a hb)

theorem validSamples_eq_nil {r : Raster}
    (h : ∀ i j, i < r.height → j < r.width → cellInvalid r i j) :
    validSamples r = [] := by
  unfold validSamples
  refine flatMap_eq_nil_of _ _ fun i hi => ?_
  unfold rowSamples
  refine filterMap_eq_nil_of _ _ fun j hj => ?_
  have hc := h i j (List.mem_range.mp hi) (List.mem_range.mp hj)
  unfold cellInvalid at hc
  rcases hd : r.data i j with _ | v
  · rfl
  · rw [hd] at hc
    simp [hc]

/-!
Claim theorems.
-/

/-- Claim C1: on every successful segmenter run, the output mask cell is
1 iff the input sample there is valid (not the no-data sentinel, not
NaN) and at least the computed threshold, else 0; NaN cells and no-data
cells map to 0; and the output keeps the input dimensions,
geotransform and projection. -/
theorem otsu_mask_contract (r : Raster) (out : SegResult) (i j : ℕ)
    (h : processOtsu r = Except.ok out) :
    out.width = r.width ∧ out.height = r.height ∧ out.gt = r.gt ∧
      out.proj = r.proj ∧
      (out.mask i j = 1 ↔
        ∃ v, r.data i j = some v ∧ r.nodata ≠ some v ∧ out.threshold ≤ v) ∧
      (out.mask i j = 0 ∨ out.mask i j = 1) ∧
      (r.data i j = none → out.mask i j = 0) ∧
      (∀ v, r.data i j = some v → r.nodata = some v → out.mask i j = 0) := by
  unfold processOtsu at h
  split at h
  · exact Except.noConfusion h
  · obtain rfl : _ = out := Except.ok.inj h
    refine ⟨rfl, rfl, rfl, rfl, maskVal_eq_one_iff _ _ _, maskVal_zero_or_one _ _ _, ?_, ?_⟩
    · intro hd
      show maskVal r.nodata (segThreshold r) (r.data i j) = 0
      rw [hd]
      exact maskVal_none _ _
    · intro v hd hn
      show maskVal r.nodata (segThreshold r) (r.data i j) = 0
      rw [hd, hn]
      exact maskVal_nodata_cell _ _

/-- Witness for C1 at the raster `rEx` and its no-data cell `(0, 2)`. -/
theorem otsu_mask_contract_witness :
    rExOut.width = rEx.width ∧ rExOut.height = rEx.height ∧ rExOut.gt = rEx.gt ∧
      rExOut.proj = rEx.proj ∧
      (rExOut.mask 0 2 = 1 ↔
        ∃ v, rEx.data 0 2 = some v ∧ rEx.nodata ≠ some v ∧ rExOut.threshold ≤ v) ∧
      (rExOut.mask 0 2 = 0 ∨ rExOut.mask 0 2 = 1) ∧
      (rEx.data 0 2 = none → rExOut.mask 0 2 = 0) ∧
      (∀ v, rEx.data 0 2 = some v → rEx.nodata = some v → rExOut.mask 0 2 = 0) :=
  otsu_mask_contract rEx rExOut 0 2 rfl

/-- Claim C2: the label is decided by the ordered first-match-wins rule
chain of `waterClassify.py` lines 136-145, and in particular area 5000
with elongation 1 gives Pond, main axis 10000 with elongation 5 gives
River, and area 600000 with elongation 1 gives Lake. -/
theorem classify_chain :
    (∀ a e m : ℚ, 8000 < m ∧ 3 < e → classify a e m = WaterClass.river) ∧
    (∀ a e m : ℚ, ¬(8000 < m ∧ 3 < e) → 500000 < a ∧ e < 2 →
      classify a e m = WaterClass.lake) ∧
    (∀ a e m : ℚ, ¬(8000 < m ∧ 3 < e) → ¬(500000 < a ∧ e < 2) →
      a < 20000 ∧ 2 < e → classify a e m = WaterClass.creek) ∧
    (∀ a e m : ℚ, ¬(8000 < m ∧ 3 < e) → ¬(500000 < a ∧ e < 2) →
      ¬(a < 20000 ∧ 2 < e) → a < 10000 → classify a e m = WaterClass.pond) ∧
    (∀ a e m : ℚ, ¬(8000 < m ∧ 3 < e) → ¬(500000 < a ∧ e < 2) →
      ¬(a < 20000 ∧ 2 < e) → ¬(a < 10000) → classify a e m = WaterClass.generic) ∧
    (∀ m : ℚ, classify 5000 1 m = WaterClass.pond) ∧
    (∀ a : ℚ, classify a 5 10000 = WaterClass.river) ∧
    (∀ m : ℚ, classify 600000 1 m = WaterClass.lake) := by
  refine ⟨?_, ?_, ?_, ?_, ?_, ?_, ?_, ?_⟩
  · intro a e m h
    simp [classify, h]
  · intro a e m h1 h2
    simp [classify, h1, h2]
  · intro a e m h1 h2 h3
    simp [classify, h1, h2, h3]
  · intro a e m h1 h2 h3 h4
    simp [classify, h1, h2, h3, h4]
  · intro a e m h1 h2 h3 h4
    simp [classify, h1, h2, h3, h4]
  · intro m
    have h1 : ¬(8000 < m ∧ 3 < (1 : ℚ)) := by rintro ⟨-, h⟩; norm_num at h
    simp [classify, h1]
    norm_num
  · intro a
    have h1 : 8000 < (10000 : ℚ) ∧ 3 < (5 : ℚ) := by norm_num
    simp [classify, h1]
  · intro m
    have h1 : ¬(8000 < m ∧ 3 < (1 : ℚ)) := by rintro ⟨-, h⟩; norm_num at h
    simp [classify, h1]
    norm_num

/-- Witness for C2 at the three concrete feature vectors. -/
theorem classify_chain_witness :
    classify 5000 1 0 = WaterClass.pond ∧ classify 0 5 10000 = WaterClass.river ∧
      classify 600000 1 0 = WaterClass.lake ∧
      classify 600001 1 0 = WaterClass.lake :=
  ⟨classify_chain.2.2.2.2.2.1 0, classify_chain.2.2.2.2.2.2.1 0,
    classify_chain.2.2.2.2.2.2.2 0,
    classify_chain.2.1 600001 1 0 (by norm_num) (by norm_num)⟩

/-- Claim C3, counterexample: on the constant raster `rConst` the
valid samples all equal 5 (so min = max), yet the segmenter does not
fail: the run succeeds.  The code never raises the spec error kind
`DegenerateRangeError`; the numpy division by `max - min = 0` only
produces NaN values, whose `uint8` cast is 0, and the run continues. -/
theorem const_raster_no_failure :
    validSamples rConst = [5, 5] ∧ segMin rConst = segMax rConst ∧
      isOkSeg (processOtsu rConst) = true :=
  ⟨by decide, by decide, rfl⟩

/-- Claim C3, amended: on a raster whose valid samples are nonempty and
all equal (min = max), the segmenter succeeds, reports the common value
as the threshold (the Otsu term is multiplied by `max - min = 0`), and
writes a full mask of the input dimensions. -/
theorem const_raster_succeeds (r : Raster)
    (hne : validSamples r ≠ []) (heq : segMin r = segMax r) :
    ∃ out : SegResult, processOtsu r = Except.ok out ∧
      out.threshold = segMin r ∧ out.width = r.width ∧ out.height = r.height ∧
      out.gt = r.gt ∧ out.proj = r.proj ∧
      ∀ i j : ℕ, out.mask i j = maskVal r.nodata (segMin r) (r.data i j) := by
  have h0 : segThreshold r = segMin r := by
    unfold segThreshold
    rw [← heq]
    ring
  refine ⟨{ width := r.width, height := r.height, gt := r.gt, proj := r.proj
            nodataOut := 0, threshold := segThreshold r
            mask := fun i j => maskVal r.nodata (segThreshold r) (r.data i j) },
    ?_, h0, rfl, rfl, rfl, rfl, ?_⟩
  · unfold processOtsu
    rw [if_neg hne]
  · intro i j
    rw [h0]

/-- Witness for the amended C3 at the constant raster `rConst`. -/
theorem const_raster_succeeds_witness :
    ∃ out : SegResult, processOtsu rConst = Except.ok out ∧
      out.threshold = segMin rConst ∧ out.width = rConst.width ∧
      out.height = rConst.height ∧ out.gt = rConst.gt ∧ out.proj = rConst.proj ∧
      ∀ i j : ℕ, out.mask i j = maskVal rConst.nodata (segMin rConst) (rConst.data i j) :=
  const_raster_succeeds rConst (by decide) (by decide)

/-- Claim C4: on a raster in which every cell is NaN or the no-data
sentinel, the segmenter fails on the empty valid-sample set (the numpy
`ValueError` at `arr_valid.min()`, the `EmptyInputError` of the spec), and no
output is produced. -/
theorem empty_input_fails (r : Raster)
    (h : ∀ i j, i < r.height → j < r.width → cellInvalid r i j) :
    processOtsu r = Except.error SegError.emptyInput := by
  unfold processOtsu
  rw [if_pos (validSamples_eq_nil h)]

/-- Witness for C4 at the all-no-data raster `rEmpty`. -/
theorem empty_input_fails_witness :
    processOtsu rEmpty = Except.error SegError.emptyInput :=
  empty_input_fails rEmpty fun _ _ _ _ => rfl

/-- Claim C5, counterexample: the claim says the scaled value is
`round((v - min) / (max - min) * 255)`; on `rC5` (samples 0, 1, 2) the
sample 1 rescales to 127.5, which the truncating `uint8` cast
sends to 127 while rounding to nearest gives 128. -/
theorem scaled_truncation_cex :
    (1 : ℚ) ∈ validSamples rC5 ∧ segMin rC5 = 0 ∧ segMax rC5 = 2 ∧
      scaledOf (segMin rC5) (segMax rC5) 1 = 127 ∧
      scaledSpecRound (segMin rC5) (segMax rC5) 1 = 128 := by
  have hmn : segMin rC5 = 0 := by decide
  have hmx : segMax rC5 = 2 := by decide
  refine ⟨by decide, hmn, hmx, ?_, ?_⟩
  · rw [hmn, hmx]
    norm_num [scaledOf]
    decide
  · rw [hmn, hmx]
    norm_num [scaledSpecRound, round_eq]

/-- Claim C5, amended: the scaled value of every valid sample is the
truncation (floor, the values being nonnegative) of
`(v - min) / (max - min) * 255`, not its rounding. -/
theorem scaled_is_floor (r : Raster) (v : ℚ) (hv : v ∈ validSamples r) :
    (scaledOf (segMin r) (segMax r) v : ℤ) =
      ⌊(v - segMin r) / (segMax r - segMin r) * 255⌋ := by
  have h1 : segMin r ≤ v := segMin_le_of_mem hv
  have h2 : v ≤ segMax r := le_segMax_of_mem hv
  unfold scaledOf
  rw [Int.toNat_of_nonneg]
  refine Int.floor_nonneg.mpr ?_
  rcases eq_or_lt_of_le (le_trans h1 h2) with he | hlt
  · rw [← he, sub_self, div_zero, zero_mul]
  · refine mul_nonneg (div_nonneg ?_ ?_) (by norm_num)
    · exact sub_nonneg.mpr h1
    · exact le_of_lt (sub_pos.mpr hlt)

/-- Witness for the amended C5 at the raster `rC5`, sample 1. -/
theorem scaled_is_floor_witness :
    (scaledOf (segMin rC5) (segMax rC5) 1 : ℤ) =
      ⌊((1 : ℚ) - segMin rC5) / (segMax rC5 - segMin rC5) * 255⌋ :=
  scaled_is_floor rC5 1 (by decide)

/-- Claim C6: on every successful run over a raster with two distinct
valid values, the reported threshold is
`min + (t* / 255) * (max - min)` for the Otsu split point `t*` of the
scaled histogram, and it lies in the closed interval `[min, max]`. -/
theorem threshold_in_range (r : Raster) (out : SegResult)
    (h : processOtsu r = Except.ok out)
    (_hd : ∃ a ∈ validSamples r, ∃ b ∈ validSamples r, a ≠ b) :
    out.threshold = segMin r + ((segT r : ℚ) / 255) * (segMax r - segMin r) ∧
      segMin r ≤ out.threshold ∧ out.threshold ≤ segMax r := by
  unfold processOtsu at h
  split at h
  · exact Except.noConfusion h
  · rename_i hne
    obtain rfl : _ = out := Except.ok.inj h
    have hmm : segMin r ≤ segMax r := segMin_le_segMax hne
    have ht255 : (segT r : ℚ) ≤ 255 := by
      exact_mod_cast otsuThreshold_le (segHist r) (segScaled r).length
    have ht0 : (0 : ℚ) ≤ (segT r : ℚ) / 255 := by positivity
    have ht1 : (segT r : ℚ) / 255 ≤ 1 := by
      rw [div_le_one (by norm_num)]
      exact ht255
    refine ⟨rfl, ?_, ?_⟩
    · show segMin r ≤ segThreshold r
      unfold segThreshold
      have : (0 : ℚ) ≤ (segT r : ℚ) / 255 * (segMax r - segMin r) :=
        mul_nonneg ht0 (sub_nonneg.mpr hmm)
      linarith
    · show segThreshold r ≤ segMax r
      unfold segThreshold
      have := mul_le_mul_of_nonneg_right ht1 (sub_nonneg.mpr hmm)
      rw [one_mul] at this
      linarith

/-- Witness for C6 at the raster `rEx` (valid samples 0 and 1). -/
theorem threshold_in_range_witness :
    rExOut.threshold = segMin rEx + ((segT rEx : ℚ) / 255) * (segMax rEx - segMin rEx) ∧
      segMin rEx ≤ rExOut.threshold ∧ rExOut.threshold ≤ segMax rEx :=
  threshold_in_range rEx rExOut rfl ⟨0, by decide, 1, by decide, by decide⟩

/-- Claim C7: in a non-cancelled classifier run the output is exactly
one feature per `DN = 1` polygon, in order; the total output count
(which the five per-class counts partition) equals the `DN = 1` input
count; each emitted feature keeps the polygon geometry and starts its
attribute row with the original attributes. -/
theorem classifier_output_counts (inputs : List InFeature) :
    classifyAll inputs noCancel = (filterWater inputs).map emitFeature ∧
      (classifyAll inputs noCancel).length = (filterWater inputs).length ∧
      countClass WaterClass.river (classifyAll inputs noCancel) +
        countClass WaterClass.lake (classifyAll inputs noCancel) +
        countClass WaterClass.creek (classifyAll inputs noCancel) +
        countClass WaterClass.pond (classifyAll inputs noCancel) +
        countClass WaterClass.generic (classifyAll inputs noCancel) =
        (classifyAll inputs noCancel).length ∧
      ∀ f : InFeature, (emitFeature f).geom = f.geom ∧
        (emitFeature f).attrs.take f.attrs.length = f.attrs := by
  refine ⟨classifyAll_noCancel_eq inputs, ?_, length_eq_sum_counts _, ?_⟩
  · rw [classifyAll_noCancel_eq, List.length_map]
  · intro f
    refine ⟨rfl, ?_⟩
    show (f.attrs ++ _).take f.attrs.length = f.attrs
    rw [List.take_left]

/-- Claim C8: when the oriented minimum bounding rectangle is missing or
invalid, the classifier falls back to elongation 1.0 and main axis 0 and
still emits the feature; otherwise elongation is `max side / min side`
when the minimum side is positive (else 1.0) and the main axis is the
maximum side. -/
theorem mbr_fallback_behavior (g : Geometry) :
    (g.ombb = none → elongMainAxis g = (1, 0)) ∧
      (∀ rect : OMBB, g.ombb = some rect → rect.valid = false →
        elongMainAxis g = (1, 0)) ∧
      (∀ rect : OMBB, g.ombb = some rect → rect.valid = true →
        elongMainAxis g =
          (if 0 < sideMin rect.sides then sideMax rect.sides / sideMin rect.sides
            else 1, sideMax rect.sides)) ∧
      (∀ (f : InFeature) (rest : List InFeature) (i : ℕ) (c : ℕ → Bool),
        c i = false →
          runLoop (f :: rest) i c = emitFeature f :: runLoop rest (i + 1) c) := by
  refine ⟨?_, ?_, ?_, ?_⟩
  · intro h
    simp [elongMainAxis, h]
  · intro rect h hv
    simp [elongMainAxis, h, hv]
  · intro rect h hv
    simp [elongMainAxis, h, hv]
  · intro f rest i c hc
    simp [runLoop, hc]

/-- Witness for C8 at the fallback geometry `gFallback` and the feature
`fEx`. -/
theorem mbr_fallback_behavior_witness :
    elongMainAxis gFallback = (1, 0) ∧
      runLoop [fEx] 0 noCancel = emitFeature fEx :: runLoop [] 1 noCancel :=
  ⟨(mbr_fallback_behavior gFallback).1 rfl,
    (mbr_fallback_behavior gFallback).2.2.2 fEx [] 0 noCancel rfl⟩

/-- Claim C9: when cancellation is signalled before the loop has
consumed all `DN = 1` polygons, the emitted output is a strict initial
segment, in processing order, of what the non-cancelled run emits (the
flag is polled once per feature, before the feature is processed). -/
theorem cancel_initial_segment (inputs : List InFeature) (canceled : ℕ → Bool)
    (h : ∃ i, i < (filterWater inputs).length ∧ canceled i = true) :
    ∃ k, k < (classifyAll inputs noCancel).length ∧
      classifyAll inputs canceled = (classifyAll inputs noCancel).take k := by
  obtain ⟨k, hk1, hk2, hk3, hk4⟩ := runLoop_take_shape (filterWater inputs) 0 canceled
  have hlen : (classifyAll inputs noCancel).length = (filterWater inputs).length := by
    rw [classifyAll_noCancel_eq, List.length_map]
  refine ⟨k, ?_, ?_⟩
  · rw [hlen]
    rcases hk2 with hkeq | hklt
    · obtain ⟨i0, hi0, hci⟩ := h
      have hcf := hk4 i0 (by omega)
      rw [Nat.zero_add] at hcf
      rw [hcf] at hci
      exact absurd hci (by simp)
    · exact hklt
  · rw [classifyAll_noCancel_eq]
    exact hk1

/-- Witness for C9: a single-feature input with the flag raised at once
emits the empty strict initial segment. -/
theorem cancel_initial_segment_witness :
    ∃ k, k < (classifyAll [fEx] noCancel).length ∧
      classifyAll [fEx] (fun _ => true) = (classifyAll [fEx] noCancel).take k :=
  cancel_initial_segment [fEx] (fun _ => true) ⟨0, by decide, rfl⟩

/-- Claim C10: every emitted feature has elongation at least 1 and a
nonnegative main axis: exactly (1, 0) on the fallback path, and on the
normal path a max/min side ratio (or 1.0 when the minimum side is 0)
together with a nonnegative side length. -/
theorem elongation_invariant (f : InFeature) :
    1 ≤ (elongMainAxis f.geom).1 ∧ 0 ≤ (elongMainAxis f.geom).2 ∧
      AttrVal.num (elongMainAxis f.geom).1 ∈ (emitFeature f).attrs ∧
      AttrVal.num (elongMainAxis f.geom).2 ∈ (emitFeature f).attrs := by
  have hmain : 1 ≤ (elongMainAxis f.geom).1 ∧ 0 ≤ (elongMainAxis f.geom).2 := by
    rcases hg : f.geom.ombb with _ | rect
    · simp [elongMainAxis, hg]
    · by_cases hv : rect.valid
      · have hle : sideMin rect.sides ≤ sideMax rect.sides := sideMin_le_sideMax rect.sides
        have hnn : 0 ≤ sideMax rect.sides := sideMax_nonneg rect.sides rect.sides_nonneg
        simp only [elongMainAxis, hg, hv, if_true]
        constructor
        · split_ifs with hw
          · exact (one_le_div hw).mpr hle
          · exact le_refl 1
        · exact hnn
      · have hv2 : rect.valid = false := Bool.eq_false_iff.mpr hv
        simp [elongMainAxis, hg, hv2]
  refine ⟨hmain.1, hmain.2, ?_, ?_⟩ <;> simp [emitFeature]
